import Mathlib

/-!
Shallow embedding of `fastapi_injector` (file `fastapi_injector/request_scope.py`)
and verification of its request-scope cache behaviour.

Modelling conventions:
* Python type objects used as cache keys are modelled as `Nat` type keys;
  the special `AsyncExitStack` class key that `RequestScope.get` stores in the
  same inner dict (lines 88-93) is modelled as a separate `stack` slot of
  `InnerScope`, so that "the inner dict has an entry under the
  `AsyncExitStack` key" is `stack.isSome`.
* Resolved dependency instances are `Value`s: an identity tag plus the two
  runtime-protocol facts `isinstance(obj, AbstractContextManager)` and
  `isinstance(obj, AbstractAsyncContextManager)` that `_register` dispatches
  on, plus whether the value's release (`__exit__`/`__aexit__`) raises.
* Python dicts are association lists with unique keys; `setK` is dict
  assignment (replace in place or append), `delK` is `del`, `lookupK` is
  subscript access returning `none` for a `KeyError`.
* A provider is modelled by its outcome: `some v` (the produced instance) or
  `none` (the provider raised).  `RequestScope.get` reports whether the
  provider was invoked so that invocation counts can be stated.
* Entering a context manager (`stack.enter_context` /
  `stack.enter_async_context`) is modelled as pushing the value onto the
  exit stack; a value is "entered" exactly when it is on some scope's stack,
  and `aclose` releasing it is modelled by its appearance in the release list.
-/

namespace FastapiInjector

/-- A resolved dependency instance: an identity tag, the two context-manager
protocol checks used by `RequestScope._register`, and whether releasing the
value raises. -/
structure Value where
  vid : Nat
  isCtxMgr : Bool
  isAsyncCtxMgr : Bool
  exitRaises : Bool
deriving DecidableEq

/-- Embedding of `RequestScopeOptions` (request_scope.py lines 30-41): one flag,
`enable_cleanup`, defaulting to `False`. -/
structure RequestScopeOptions where
  enable_cleanup : Bool := false
deriving DecidableEq

/-- The contents of an `AsyncExitStack`: the values entered on it, most
recently entered first (so the list order is the LIFO release order). -/
abbrev ExitStack := List Value

/-- One inner per-scope dict `Dict[Type, Any]`.  `vals` holds the entries
under ordinary type keys; `stack` holds the entry under the `AsyncExitStack`
class key when present. -/
structure InnerScope where
  vals : List (Nat × Value)
  stack : Option ExitStack
deriving DecidableEq

/-- The empty inner dict `{}` created by `add_key`. -/
def InnerScope.empty : InnerScope := ⟨[], none⟩

/-- The outer cache `Dict[uuid.UUID, Dict[Type, Any]]`, keyed by request id. -/
abbrev Cache := List (Nat × InnerScope)

/-- Dict subscript access: `d[k]`, `none` when the key is absent. -/
def lookupK {α : Type} : List (Nat × α) → Nat → Option α
  | [], _ => none
  | (k, v) :: rest, j => if k = j then some v else lookupK rest j

/-- Dict assignment `d[k] = v`: replaces in place, or appends when absent. -/
def setK {α : Type} : List (Nat × α) → Nat → α → List (Nat × α)
  | [], k, v => [(k, v)]
  | (k', v') :: rest, k, v =>
      if k' = k then (k, v) :: rest else (k', v') :: setK rest k v

/-- Dict deletion `del d[k]`: removes the entry for `k` when present. -/
def delK {α : Type} : List (Nat × α) → Nat → List (Nat × α)
  | [], _ => []
  | (k', v') :: rest, k => if k' = k then rest else (k', v') :: delK rest k

/-- The errors `RequestScope.get` can raise: the `RequestScopeError` of
lines 83-87 (request id missing from the context variable), the `KeyError`
raised by `self.cache[request_id]` when the id has no inner dict, and an
exception propagating out of `provider.get`. -/
inductive GetErr where
  | requestScopeError
  | keyError
  | providerError
deriving DecidableEq

instance {ε α : Type} [DecidableEq ε] [DecidableEq α] :
    DecidableEq (Except ε α) := fun a b =>
  match a, b with
  | .error x, .error y =>
      if h : x = y then isTrue (by rw [h])
      else isFalse (by intro hc; cases hc; exact h rfl)
  | .error _, .ok _ => isFalse (by intro hc; cases hc)
  | .ok _, .error _ => isFalse (by intro hc; cases hc)
  | .ok x, .ok y =>
      if h : x = y then isTrue (by rw [h])
      else isFalse (by intro hc; cases hc; exact h rfl)

/-- Outcome of one `RequestScope.get` call: the returned value or the raised
error, the cache afterwards, and whether `provider.get` was invoked. -/
structure GetResult where
  res : Except GetErr Value
  cache : Cache
  invoked : Bool
deriving DecidableEq

/-- Embedding of `RequestScope._register` (lines 114-118): a produced value implementing
`AbstractContextManager` is entered via `stack.enter_context`, else one
implementing `AbstractAsyncContextManager` is entered (through the background
loop) via `stack.enter_async_context`; anything else is left alone.  Entering
pushes the value onto the exit stack. -/
def RequestScope.register (inner : InnerScope) (obj : Value) : InnerScope :=
  if obj.isCtxMgr then
    { inner with stack := some (obj :: inner.stack.getD []) }
  else if obj.isAsyncCtxMgr then
    { inner with stack := some (obj :: inner.stack.getD []) }
  else inner

/-- Lines 88-93 of `RequestScope.get`: when cleanup is enabled, fetch the
`AsyncExitStack` entry of the inner dict or create a fresh empty one;
with cleanup disabled the local `stack` stays `None` and the dict is left
alone. -/
def cleanupPrep (opts : RequestScopeOptions) (inner : InnerScope) : InnerScope :=
  if opts.enable_cleanup then
    match inner.stack with
    | some _ => inner
    | none => { inner with stack := some [] }
  else inner

/-- Embedding of `RequestScope.get` (lines 80-101).
`requestId` is the current value of `_request_id_ctx` (`none` when unset, in
which case `RequestScopeError` is raised at lines 81-87).  When cleanup is
enabled, lines 89-93 (`cleanupPrep`) fetch or create the `AsyncExitStack`
entry of the inner dict; the first subscript `self.cache[request_id]` raises
`KeyError` when the id has no inner dict.  Lines 94-101: return the cached
value, or invoke the provider, store the result under the key, register it on
the stack when cleanup is enabled (line 99 `if stack:` — the stack object is
truthy exactly when cleanup is enabled), and return it. -/
def RequestScope.get (opts : RequestScopeOptions) (requestId : Option Nat)
    (cache : Cache) (key : Nat) (provider : Option Value) : GetResult :=
  match requestId with
  | none => ⟨.error .requestScopeError, cache, false⟩
  | some rid =>
    match lookupK cache rid with
    | none => ⟨.error .keyError, cache, false⟩
    | some inner0 =>
      let inner1 := cleanupPrep opts inner0
      match lookupK inner1.vals key with
      | some dep => ⟨.ok dep, setK cache rid inner1, false⟩
      | none =>
        match provider with
        | none => ⟨.error .providerError, setK cache rid inner1, true⟩
        | some dep =>
          let inner2 := { inner1 with vals := setK inner1.vals key dep }
          let inner3 :=
            if opts.enable_cleanup then RequestScope.register inner2 dep
            else inner2
          ⟨.ok dep, setK cache rid inner3, true⟩

/-- Embedding of `RequestScope.add_key` (lines 103-105): the bare dict assignment
`self.cache[key] = {}`, with no presence check. -/
def RequestScope.add_key (cache : Cache) (key : Nat) : Cache :=
  setK cache key InnerScope.empty

/-- Semantics of `AsyncExitStack.aclose` (stdlib `contextlib`): every entered
value is released in last-entered-first-released order — the stack unwind
attempts all releases even when one raises — and when any release raised the
exception propagates out of `aclose` after the unwind.  Returns the release
order and whether `aclose` raised. -/
def ExitStack.aclose (st : ExitStack) : List Value × Bool :=
  (st, st.any fun v => v.exitRaises)

/-- The errors `RequestScope.clear_key` can raise: the `KeyError` of
`self.cache[key]` for an unknown id, and an exception propagating out of
`stack.aclose()`. -/
inductive ClearErr where
  | keyError
  | flushError
deriving DecidableEq

/-- Outcome of `RequestScope.clear_key`: normal return or raised error, the
cache afterwards, and the values whose release was attempted, in order. -/
structure ClearResult where
  res : Except ClearErr Unit
  cache : Cache
  released : List Value
deriving DecidableEq

/-- Embedding of `RequestScope.clear_key` (lines 107-112): fetch the `AsyncExitStack`
entry of the inner dict, `await stack.aclose()` when present, then
`del self.cache[key]`.  There is no try/finally: when `aclose` raises, the
`del` statement is not executed; the unwind has still emptied the stack
object, which remains in the cache. -/
def RequestScope.clear_key (cache : Cache) (key : Nat) : ClearResult :=
  match lookupK cache key with
  | none => ⟨.error .keyError, cache, []⟩
  | some inner =>
    match inner.stack with
    | none => ⟨.ok (), delK cache key, []⟩
    | some st =>
      let r := ExitStack.aclose st
      if r.2 then
        ⟨.error .flushError, setK cache key { inner with stack := some [] }, r.1⟩
      else
        ⟨.ok (), delK cache key, r.1⟩

/-- The state threaded through `RequestScopeFactory.create_scope`: the current
value of the `_request_id_ctx` context variable and the scope cache. -/
structure World where
  requestId : Option Nat
  cache : Cache
deriving DecidableEq

/-- How one run of `create_scope` ended: the wrapped block returned normally,
the wrapped block raised (and teardown completed), or teardown itself
(`clear_key`) raised. -/
inductive ScopeOutcome where
  | ok
  | bodyError
  | teardownError
deriving DecidableEq

/-- Embedding of `RequestScopeFactory.create_scope` (lines 155-165), over an arbitrary
wrapped block `body` returning its final world and whether it completed
without raising.  `_request_id_ctx.set(rid)` yields a token remembering the
previous value; the `finally` block awaits `clear_key(rid)` and only then
resets the context variable — so when `clear_key` raises, the reset is never
executed and the id stays published. -/
def RequestScopeFactory.create_scope (rid : Nat) (w : World)
    (body : World → World × Bool) : ScopeOutcome × World :=
  let token := w.requestId
  let w1 : World := ⟨some rid, RequestScope.add_key w.cache rid⟩
  let b := body w1
  let cr := RequestScope.clear_key b.1.cache rid
  match cr.res with
  | .ok _ => ((if b.2 then .ok else .bodyError), ⟨token, cr.cache⟩)
  | .error _ => (.teardownError, ⟨b.1.requestId, cr.cache⟩)

/-- Accumulated observations of a sequence of `RequestScope.get` calls: the
final world, whether every call returned without raising (a raising call
aborts the rest, as an exception would), the total number of provider
invocations, and the values returned, in order. -/
structure RunResult where
  world : World
  ok : Bool
  invocations : Nat
  results : List Value
deriving DecidableEq

/-- A handler body that resolves request-scoped dependencies one after the
other: each element `(t, p)` is one `RequestScope.get` call for type key `t`
whose provider outcome is `p`.  The first raising call aborts the rest. -/
def runGets (opts : RequestScopeOptions) (w : World) :
    List (Nat × Option Value) → RunResult
  | [] => ⟨w, true, 0, []⟩
  | (t, p) :: ops =>
    let g := RequestScope.get opts w.requestId w.cache t p
    match g.res with
    | .error _ => ⟨⟨w.requestId, g.cache⟩, false, g.invoked.toNat, []⟩
    | .ok v =>
      let rest := runGets opts ⟨w.requestId, g.cache⟩ ops
      ⟨rest.world, rest.ok, g.invoked.toNat + rest.invocations,
        v :: rest.results⟩

/-- Wrapper turning `runGets` into a `create_scope` body: it raises exactly when some get
raised. -/
def getsBody (opts : RequestScopeOptions) (ops : List (Nat × Option Value))
    (w : World) : World × Bool :=
  let r := runGets opts w ops
  (r.world, r.ok)

/-! ### Two concurrent `get` calls for the same scope and type

`RequestScope.get` takes no lock.  Under the Python threading model the
membership test `key in self.cache[request_id]` (line 94), the provider call
(line 97) and the store (line 98) are separate statements between which
another thread may run.  We model two threads, each performing one
`RequestScope.get` for the same `(rid, key)` with cleanup disabled, split
into those atomic steps. -/

/-- Program counter of one thread running `RequestScope.get` for a fixed
`(rid, key)`: before the membership test; after a miss with the provider's
fresh instance in hand, about to store it; or finished with its returned
value. -/
inductive TPC where
  | checking
  | storing (v : Value)
  | finished (v : Value)
deriving DecidableEq

/-- Joint state of two threads racing through `RequestScope.get` on a shared
cache, counting provider invocations. -/
structure RaceState where
  cache : Cache
  a : TPC
  b : TPC
  invocations : Nat
deriving DecidableEq

/-- One atomic step of a thread running `RequestScope.get rid key` with a
provider producing the fresh instance `fresh`: the membership test (line 94)
followed, on a miss, by the provider call (line 97); or the store
(line 98). -/
def raceStep (rid key : Nat) (fresh : Value) (cache : Cache) :
    TPC → Cache × TPC × Nat
  | .checking =>
    match lookupK cache rid with
    | none => (cache, .checking, 0)
    | some inner =>
      match lookupK inner.vals key with
      | some dep => (cache, .finished dep, 0)
      | none => (cache, .storing fresh, 1)
  | .storing v =>
    match lookupK cache rid with
    | none => (cache, .storing v, 0)
    | some inner =>
      (setK cache rid { inner with vals := setK inner.vals key v },
        .finished v, 0)
  | .finished v => (cache, .finished v, 0)

/-- Run a schedule over the two racing threads; `true` schedules thread `a`,
`false` thread `b`.  Thread `a`'s provider produces `va`, thread `b`'s
produces `vb` (each call constructs its own fresh instance). -/
def raceRun (rid key : Nat) (va vb : Value) :
    List Bool → RaceState → RaceState
  | [], s => s
  | c :: rest, s =>
    let s' :=
      if c then
        let r := raceStep rid key va s.cache s.a
        { s with cache := r.1, a := r.2.1, invocations := s.invocations + r.2.2 }
      else
        let r := raceStep rid key vb s.cache s.b
        { s with cache := r.1, b := r.2.1, invocations := s.invocations + r.2.2 }
    raceRun rid key va vb rest s'

/-! ### Association-list lemmas -/

theorem lookupK_setK_self {α : Type} (l : List (Nat × α)) (k : Nat) (v : α) :
    lookupK (setK l k v) k = some v := by
  induction l with
  | nil => simp [setK, lookupK]
  | cons hd tl ih =>
    by_cases h : hd.1 = k <;> simp [setK, lookupK, h, ih]

theorem lookupK_setK_ne {α : Type} (l : List (Nat × α)) (k j : Nat) (v : α)
    (h : j ≠ k) : lookupK (setK l k v) j = lookupK l j := by
  induction l with
  | nil => simp [setK, lookupK, Ne.symm h]
  | cons hd tl ih =>
    by_cases hk : hd.1 = k
    · simp [setK, lookupK, hk, Ne.symm h]
    · simp [setK, lookupK, hk, ih]

theorem setK_fresh {α : Type} (l : List (Nat × α)) (k : Nat) (v : α)
    (h : lookupK l k = none) : setK l k v = l ++ [(k, v)] := by
  induction l with
  | nil => simp [setK]
  | cons hd tl ih =>
    by_cases hk : hd.1 = k
    · simp [lookupK, hk] at h
    · simp [lookupK, hk] at h
      simp [setK, hk, ih h]

theorem lookupK_append_last {α : Type} (l : List (Nat × α)) (k : Nat) (v : α)
    (h : lookupK l k = none) : lookupK (l ++ [(k, v)]) k = some v := by
  induction l with
  | nil => simp [lookupK]
  | cons hd tl ih =>
    by_cases hk : hd.1 = k
    · simp [lookupK, hk] at h
    · simp [lookupK, hk] at h ⊢
      exact ih h

theorem lookupK_append_ne {α : Type} (l : List (Nat × α)) (k j : Nat) (v : α)
    (h : j ≠ k) : lookupK (l ++ [(k, v)]) j = lookupK l j := by
  induction l with
  | nil => simp [lookupK, Ne.symm h]
  | cons hd tl ih =>
    by_cases hj : hd.1 = j <;> simp [lookupK, hj, ih]

theorem setK_append_last {α : Type} (l : List (Nat × α)) (k : Nat) (v v' : α)
    (h : lookupK l k = none) : setK (l ++ [(k, v)]) k v' = l ++ [(k, v')] := by
  induction l with
  | nil => simp [setK]
  | cons hd tl ih =>
    by_cases hk : hd.1 = k
    · simp [lookupK, hk] at h
    · simp [lookupK, hk] at h
      simp [setK, hk, ih h]

theorem delK_append_last {α : Type} (l : List (Nat × α)) (k : Nat) (v : α)
    (h : lookupK l k = none) : delK (l ++ [(k, v)]) k = l := by
  induction l with
  | nil => simp [delK]
  | cons hd tl ih =>
    by_cases hk : hd.1 = k
    · simp [lookupK, hk] at h
    · simp [lookupK, hk] at h
      simp [delK, hk, ih h]

/-! ### Basic facts about the embedded operations -/

theorem cleanupPrep_vals (opts : RequestScopeOptions) (s : InnerScope) :
    (cleanupPrep opts s).vals = s.vals := by
  rcases s with ⟨vs, st⟩
  cases st <;> by_cases h : opts.enable_cleanup <;> simp [cleanupPrep, h]

theorem cleanupPrep_of_disabled (opts : RequestScopeOptions) (s : InnerScope)
    (h : opts.enable_cleanup = false) : cleanupPrep opts s = s := by
  simp [cleanupPrep, h]

theorem cleanupPrep_stack_of_enabled (opts : RequestScopeOptions)
    (s : InnerScope) (h : opts.enable_cleanup = true) :
    (cleanupPrep opts s).stack = some (s.stack.getD []) := by
  rcases s with ⟨vs, st⟩
  cases st <;> simp [cleanupPrep, h]

theorem register_of_cm (s : InnerScope) (v : Value)
    (h : v.isCtxMgr = true ∨ v.isAsyncCtxMgr = true) :
    RequestScope.register s v = { s with stack := some (v :: s.stack.getD []) } := by
  rcases h with h | h <;> cases hc : v.isCtxMgr <;>
    simp_all [RequestScope.register]

theorem register_of_plain (s : InnerScope) (v : Value)
    (h1 : v.isCtxMgr = false) (h2 : v.isAsyncCtxMgr = false) :
    RequestScope.register s v = s := by
  simp [RequestScope.register, h1, h2]

theorem register_vals (s : InnerScope) (v : Value) :
    (RequestScope.register s v).vals = s.vals := by
  cases hc : v.isCtxMgr <;> cases ha : v.isAsyncCtxMgr <;>
    simp [RequestScope.register, hc, ha]

/-! ### Evaluation equations for `RequestScope.get` -/

theorem get_eq_noScope (opts : RequestScopeOptions) (cache : Cache)
    (t : Nat) (p : Option Value) :
    RequestScope.get opts none cache t p =
      ⟨.error .requestScopeError, cache, false⟩ := rfl

theorem get_eq_noInner (opts : RequestScopeOptions) (rid : Nat) (cache : Cache)
    (t : Nat) (p : Option Value) (h : lookupK cache rid = none) :
    RequestScope.get opts (some rid) cache t p =
      ⟨.error .keyError, cache, false⟩ := by
  simp [RequestScope.get, h]

theorem get_eq_hit (opts : RequestScopeOptions) (rid : Nat) (cache : Cache)
    (t : Nat) (p : Option Value) (inner : InnerScope) (v : Value)
    (h1 : lookupK cache rid = some inner)
    (h2 : lookupK inner.vals t = some v) :
    RequestScope.get opts (some rid) cache t p =
      ⟨.ok v, setK cache rid (cleanupPrep opts inner), false⟩ := by
  simp [RequestScope.get, h1, cleanupPrep_vals, h2]

theorem get_eq_missFail (opts : RequestScopeOptions) (rid : Nat)
    (cache : Cache) (t : Nat) (inner : InnerScope)
    (h1 : lookupK cache rid = some inner)
    (h2 : lookupK inner.vals t = none) :
    RequestScope.get opts (some rid) cache t none =
      ⟨.error .providerError, setK cache rid (cleanupPrep opts inner), true⟩ := by
  simp [RequestScope.get, h1, cleanupPrep_vals, h2]

theorem get_eq_missOk (opts : RequestScopeOptions) (rid : Nat)
    (cache : Cache) (t : Nat) (inner : InnerScope) (v : Value)
    (h1 : lookupK cache rid = some inner)
    (h2 : lookupK inner.vals t = none) :
    RequestScope.get opts (some rid) cache t (some v) =
      ⟨.ok v,
        setK cache rid
          (if opts.enable_cleanup then
            RequestScope.register
              { cleanupPrep opts inner with
                  vals := setK (cleanupPrep opts inner).vals t v } v
          else
            { cleanupPrep opts inner with
                vals := setK (cleanupPrep opts inner).vals t v }),
        true⟩ := by
  simp [RequestScope.get, h1, cleanupPrep_vals, h2]

/-! ### Concrete sample values for witnesses and counterexamples -/

/-- A value implementing neither context-manager protocol. -/
def plainVal : Value := ⟨10, false, false, false⟩

/-- A synchronous context manager whose release succeeds. -/
def cmVal : Value := ⟨11, true, false, false⟩

/-- An asynchronous context manager whose release succeeds. -/
def acmVal : Value := ⟨12, false, true, false⟩

/-- Another synchronous context manager whose release succeeds. -/
def cmValB : Value := ⟨13, true, false, false⟩

/-- A synchronous context manager whose release raises. -/
def raisingVal : Value := ⟨14, true, false, true⟩

/-! ### Claims -/

/-- C4 (amended): a dependency lookup with no request id published raises
`RequestScopeError` without invoking the provider; a lookup with a published
id that has no inner mapping in the cache raises the dict's `KeyError` — not
`RequestScopeError` — and also does not invoke the provider. -/
theorem C4_no_scope_failure (opts : RequestScopeOptions) (cache : Cache)
    (rid t : Nat) (p : Option Value) (h : lookupK cache rid = none) :
    RequestScope.get opts none cache t p
        = ⟨.error .requestScopeError, cache, false⟩ ∧
    RequestScope.get opts (some rid) cache t p
        = ⟨.error .keyError, cache, false⟩ :=
  ⟨get_eq_noScope opts cache t p, get_eq_noInner opts rid cache t p h⟩

/-- C4 witness: both failure modes at concrete inputs. -/
theorem C4_no_scope_failure_witness :
    RequestScope.get ⟨false⟩ none [] 1 (some plainVal)
        = ⟨.error .requestScopeError, [], false⟩ ∧
    RequestScope.get ⟨false⟩ (some 0) [] 1 (some plainVal)
        = ⟨.error .keyError, [], false⟩ :=
  C4_no_scope_failure ⟨false⟩ [] 0 1 (some plainVal) (by decide)

/-- C4 counterexample: with id 0 published but no inner mapping registered
for it, `RequestScope.get` raises `KeyError`, not the `RequestScopeError`
the claim asserts (the provider is indeed not invoked). -/
theorem C4_counterexample :
    (RequestScope.get ⟨false⟩ (some 0) [] 1 (some plainVal)).res
        = .error .keyError ∧
    (RequestScope.get ⟨false⟩ (some 0) [] 1 (some plainVal)).res
        ≠ .error .requestScopeError ∧
    (RequestScope.get ⟨false⟩ (some 0) [] 1 (some plainVal)).invoked = false := by
  decide

/-- C5 (amended): `add_key` never fails: it unconditionally assigns a fresh
empty inner mapping to the id, silently replacing any existing one, and
leaves every other id's mapping unchanged; no `DuplicateScope` check exists. -/
theorem C5_add_key_replaces (cache : Cache) (k : Nat) :
    lookupK (RequestScope.add_key cache k) k = some InnerScope.empty ∧
    ∀ j, j ≠ k → lookupK (RequestScope.add_key cache k) j = lookupK cache j :=
  ⟨lookupK_setK_self cache k InnerScope.empty,
    fun j hj => lookupK_setK_ne cache k j InnerScope.empty hj⟩

/-- C5 witness: `add_key` on a cache that already holds id 0. -/
theorem C5_add_key_replaces_witness :
    lookupK (RequestScope.add_key [(0, ⟨[(1, plainVal)], none⟩)] 0) 0
        = some InnerScope.empty ∧
    lookupK (RequestScope.add_key [(0, ⟨[(1, plainVal)], none⟩)] 0) 5
        = lookupK [(0, ⟨[(1, plainVal)], none⟩)] 5 :=
  ⟨(C5_add_key_replaces [(0, ⟨[(1, plainVal)], none⟩)] 0).1,
    (C5_add_key_replaces [(0, ⟨[(1, plainVal)], none⟩)] 0).2 5 (by decide)⟩

/-- C5 counterexample: calling `add_key` with an id already present succeeds
(the operation is total — it has no failure outcome at all) and silently
replaces the existing non-empty inner mapping with a fresh empty one. -/
theorem C5_counterexample :
    RequestScope.add_key [(0, ⟨[(1, plainVal)], none⟩)] 0
        = [(0, InnerScope.empty)] ∧
    some (⟨[(1, plainVal)], none⟩ : InnerScope) ≠ some InnerScope.empty := by
  decide

/-- C6: when the provider raises while computing a scoped value, the error
propagates out of `get` (the provider was invoked), no value is stored under
the requested type in that scope, and a subsequent `get` for the same
`(id, type)` invokes the provider again and returns its fresh result. -/
theorem C6_producer_failure (opts : RequestScopeOptions) (rid t : Nat)
    (cache : Cache) (inner : InnerScope)
    (h1 : lookupK cache rid = some inner)
    (h2 : lookupK inner.vals t = none) :
    (RequestScope.get opts (some rid) cache t none).res
        = .error .providerError ∧
    (RequestScope.get opts (some rid) cache t none).invoked = true ∧
    (∃ s, lookupK (RequestScope.get opts (some rid) cache t none).cache rid
        = some s ∧ lookupK s.vals t = none) ∧
    ∀ v,
      (RequestScope.get opts (some rid)
          (RequestScope.get opts (some rid) cache t none).cache t (some v)).res
        = .ok v ∧
      (RequestScope.get opts (some rid)
          (RequestScope.get opts (some rid) cache t none).cache t
          (some v)).invoked = true := by
  have hg := get_eq_missFail opts rid cache t inner h1 h2
  have hs : lookupK (RequestScope.get opts (some rid) cache t none).cache rid
      = some (cleanupPrep opts inner) := by
    rw [hg]; exact lookupK_setK_self cache rid (cleanupPrep opts inner)
  have hv : lookupK (cleanupPrep opts inner).vals t = none := by
    rw [cleanupPrep_vals]; exact h2
  refine ⟨by rw [hg], by rw [hg], ⟨cleanupPrep opts inner, hs, hv⟩, ?_⟩
  intro v
  have hg2 := get_eq_missOk opts rid
    (RequestScope.get opts (some rid) cache t none).cache t
    (cleanupPrep opts inner) v hs hv
  exact ⟨by rw [hg2], by rw [hg2]⟩

/-- C6 witness: a failing then a succeeding provider in a fresh open scope. -/
theorem C6_producer_failure_witness :
    (RequestScope.get ⟨true⟩ (some 0) [(0, InnerScope.empty)] 1 none).res
        = .error .providerError ∧
    (RequestScope.get ⟨true⟩ (some 0) [(0, InnerScope.empty)] 1 none).invoked
        = true ∧
    (∃ s, lookupK
        (RequestScope.get ⟨true⟩ (some 0) [(0, InnerScope.empty)] 1 none).cache
        0 = some s ∧ lookupK s.vals 1 = none) ∧
    ∀ v,
      (RequestScope.get ⟨true⟩ (some 0)
          (RequestScope.get ⟨true⟩ (some 0) [(0, InnerScope.empty)] 1
            none).cache 1 (some v)).res = .ok v ∧
      (RequestScope.get ⟨true⟩ (some 0)
          (RequestScope.get ⟨true⟩ (some 0) [(0, InnerScope.empty)] 1
            none).cache 1 (some v)).invoked = true :=
  C6_producer_failure ⟨true⟩ 0 1 [(0, InnerScope.empty)] InnerScope.empty
    (by decide) (by decide)

/-- C9: a `get` under one scope id leaves every other id's inner mapping
untouched, and a value it returns comes either from its own scope's inner
mapping or from the provider — never from a different scope's mapping. -/
theorem C9_scope_isolation (opts : RequestScopeOptions) (rid rid' t : Nat)
    (cache : Cache) (p : Option Value) (hne : rid' ≠ rid) :
    lookupK (RequestScope.get opts (some rid) cache t p).cache rid'
        = lookupK cache rid' ∧
    ∀ v, (RequestScope.get opts (some rid) cache t p).res = .ok v →
      (∃ inner, lookupK cache rid = some inner ∧
          lookupK inner.vals t = some v) ∨ p = some v := by
  cases h1 : lookupK cache rid with
  | none =>
    have hg := get_eq_noInner opts rid cache t p h1
    exact ⟨by rw [hg], fun v hv => by rw [hg] at hv; cases hv⟩
  | some inner =>
    cases h2 : lookupK inner.vals t with
    | some v0 =>
      have hg := get_eq_hit opts rid cache t p inner v0 h1 h2
      refine ⟨by rw [hg]; exact lookupK_setK_ne _ _ _ _ hne, fun v hv => ?_⟩
      rw [hg] at hv
      have hv' : v0 = v := by injection hv
      exact Or.inl ⟨inner, rfl, hv' ▸ h2⟩
    | none =>
      cases p with
      | none =>
        have hg := get_eq_missFail opts rid cache t inner h1 h2
        exact ⟨by rw [hg]; exact lookupK_setK_ne _ _ _ _ hne,
          fun v hv => by rw [hg] at hv; cases hv⟩
      | some v0 =>
        have hg := get_eq_missOk opts rid cache t inner v0 h1 h2
        refine ⟨by rw [hg]; exact lookupK_setK_ne _ _ _ _ hne, fun v hv => ?_⟩
        rw [hg] at hv
        have hv' : v0 = v := by injection hv
        exact Or.inr (by rw [hv'])

/-- C9 witness: two distinct scopes, the second one's mapping untouched. -/
theorem C9_scope_isolation_witness :
    lookupK (RequestScope.get ⟨false⟩ (some 0)
        [(0, InnerScope.empty), (3, ⟨[(1, cmVal)], none⟩)] 1
        (some plainVal)).cache 3
      = lookupK [(0, InnerScope.empty), (3, ⟨[(1, cmVal)], none⟩)] 3 ∧
    ∀ v, (RequestScope.get ⟨false⟩ (some 0)
        [(0, InnerScope.empty), (3, ⟨[(1, cmVal)], none⟩)] 1
        (some plainVal)).res = .ok v →
      (∃ inner,
          lookupK [(0, InnerScope.empty), (3, ⟨[(1, cmVal)], none⟩)] 0
            = some inner ∧ lookupK inner.vals 1 = some v) ∨
        some plainVal = some v :=
  C9_scope_isolation ⟨false⟩ 0 3 1
    [(0, InnerScope.empty), (3, ⟨[(1, cmVal)], none⟩)] (some plainVal)
    (by decide)

/-- After a cache miss with a succeeding provider, the scope's inner mapping
holds the produced value under the requested type. -/
theorem get_missOk_core (opts : RequestScopeOptions) (rid t : Nat)
    (cache : Cache) (inner : InnerScope) (v : Value)
    (h1 : lookupK cache rid = some inner)
    (h2 : lookupK inner.vals t = none) :
    (RequestScope.get opts (some rid) cache t (some v)).res = .ok v ∧
    (RequestScope.get opts (some rid) cache t (some v)).invoked = true ∧
    ∃ s, lookupK (RequestScope.get opts (some rid) cache t (some v)).cache rid
        = some s ∧ lookupK s.vals t = some v := by
  have hg := get_eq_missOk opts rid cache t inner v h1 h2
  refine ⟨by rw [hg], by rw [hg], ?_⟩
  by_cases hc : opts.enable_cleanup
  · refine ⟨RequestScope.register
        { cleanupPrep opts inner with
            vals := setK (cleanupPrep opts inner).vals t v } v, ?_, ?_⟩
    · rw [hg]; simp only [hc, if_true]; exact lookupK_setK_self _ _ _
    · rw [register_vals]; exact lookupK_setK_self _ _ _
  · refine ⟨{ cleanupPrep opts inner with
        vals := setK (cleanupPrep opts inner).vals t v }, ?_, ?_⟩
    · rw [hg]; simp only [hc, if_false]; exact lookupK_setK_self _ _ _
    · exact lookupK_setK_self _ _ _

/-- A run of `m` further lookups of a type already cached in the open scope:
no provider invocation, every call returns the cached value. -/
theorem runGets_replicate_hit (opts : RequestScopeOptions) (rid t : Nat)
    (v : Value) :
    ∀ (m : Nat) (cache : Cache) (inner : InnerScope),
      lookupK cache rid = some inner →
      lookupK inner.vals t = some v →
      (runGets opts ⟨some rid, cache⟩ (List.replicate m (t, some v))).ok
          = true ∧
      (runGets opts ⟨some rid, cache⟩
          (List.replicate m (t, some v))).invocations = 0 ∧
      (runGets opts ⟨some rid, cache⟩ (List.replicate m (t, some v))).results
          = List.replicate m v := by
  intro m
  induction m with
  | zero => intro cache inner h1 h2; simp [runGets]
  | succ m ih =>
    intro cache inner h1 h2
    have hg := get_eq_hit opts rid cache t (some v) inner v h1 h2
    have hnext := ih (setK cache rid (cleanupPrep opts inner))
      (cleanupPrep opts inner) (lookupK_setK_self _ _ _)
      (by rw [cleanupPrep_vals]; exact h2)
    simp only [List.replicate_succ, runGets, hg]
    simp only [runGets] at hnext
    simp [hnext.1, hnext.2.1, hnext.2.2]

/-- C1: in an open scope where the type is not yet cached, `N ≥ 1`
sequential `getOrCreate` calls for the same `(id, type)` invoke the provider
exactly once and every call returns the identical cached value. -/
theorem C1_get_idempotent (opts : RequestScopeOptions) (rid t n : Nat)
    (cache : Cache) (inner : InnerScope) (v : Value)
    (h1 : lookupK cache rid = some inner)
    (h2 : lookupK inner.vals t = none)
    (hn : 0 < n) :
    (runGets opts ⟨some rid, cache⟩
        (List.replicate n (t, some v))).invocations = 1 ∧
    (runGets opts ⟨some rid, cache⟩ (List.replicate n (t, some v))).results
        = List.replicate n v ∧
    (runGets opts ⟨some rid, cache⟩ (List.replicate n (t, some v))).ok
        = true := by
  cases n with
  | zero => cases hn
  | succ m =>
    obtain ⟨hres, hinv, s, hs, hsv⟩ := get_missOk_core opts rid t cache inner v h1 h2
    have hrest := runGets_replicate_hit opts rid t v m
      (RequestScope.get opts (some rid) cache t (some v)).cache s hs hsv
    simp only [List.replicate_succ, runGets, hres, hinv]
    simp only [runGets] at hrest
    simp [hres, hinv, hrest.1, hrest.2.1, hrest.2.2]

/-- C1 witness: three lookups in a fresh scope, one provider invocation. -/
theorem C1_get_idempotent_witness :
    (runGets ⟨false⟩ ⟨some 0, [(0, InnerScope.empty)]⟩
        (List.replicate 3 (1, some plainVal))).invocations = 1 ∧
    (runGets ⟨false⟩ ⟨some 0, [(0, InnerScope.empty)]⟩
        (List.replicate 3 (1, some plainVal))).results
      = List.replicate 3 plainVal ∧
    (runGets ⟨false⟩ ⟨some 0, [(0, InnerScope.empty)]⟩
        (List.replicate 3 (1, some plainVal))).ok = true :=
  C1_get_idempotent ⟨false⟩ 0 1 3 [(0, InnerScope.empty)] InnerScope.empty
    plainVal (by decide) (by decide) (by decide)

/-- Fact: `clear_key` attempts the release of exactly the values on the scope's
exit stack, in stack order, whether or not some release raises. -/
theorem clear_key_released (cache : Cache) (k : Nat) (inner : InnerScope)
    (st : ExitStack) (h : lookupK cache k = some inner)
    (hs : inner.stack = some st) :
    (RequestScope.clear_key cache k).released = st := by
  by_cases hr : st.any (fun v => v.exitRaises) <;>
    simp [RequestScope.clear_key, h, hs, ExitStack.aclose, hr]

/-- C8: cleanup gating.  With `enable_cleanup = false` a produced value is
never entered (the scope's exit stack is left exactly as it was, whatever the
provider does).  With `enable_cleanup = true`, a produced value implementing
a context-manager protocol is pushed onto the exit stack before `get`
returns it, and flushing the scope at close releases it (first, being the
most recent).  A produced value implementing neither protocol is never
registered: the stack contents stay unchanged. -/
theorem C8_cleanup_gating (rid t : Nat) (cache : Cache) (inner : InnerScope)
    (v : Value) (h1 : lookupK cache rid = some inner) :
    (∀ p, ∃ s,
      lookupK (RequestScope.get ⟨false⟩ (some rid) cache t p).cache rid
          = some s ∧ s.stack = inner.stack) ∧
    (lookupK inner.vals t = none →
      v.isCtxMgr = true ∨ v.isAsyncCtxMgr = true →
      (RequestScope.get ⟨true⟩ (some rid) cache t (some v)).res = .ok v ∧
      ∃ s,
        lookupK (RequestScope.get ⟨true⟩ (some rid) cache t (some v)).cache
            rid = some s ∧
        s.stack = some (v :: inner.stack.getD []) ∧
        (RequestScope.clear_key
            (RequestScope.get ⟨true⟩ (some rid) cache t (some v)).cache
            rid).released
          = v :: inner.stack.getD []) ∧
    (lookupK inner.vals t = none →
      v.isCtxMgr = false → v.isAsyncCtxMgr = false →
      ∃ s,
        lookupK (RequestScope.get ⟨true⟩ (some rid) cache t (some v)).cache
            rid = some s ∧
        s.stack = some (inner.stack.getD [])) := by
  have hprep0 : cleanupPrep ⟨false⟩ inner = inner :=
    cleanupPrep_of_disabled ⟨false⟩ inner rfl
  refine ⟨?_, ?_, ?_⟩
  · intro p
    cases h2 : lookupK inner.vals t with
    | some v0 =>
      have hg := get_eq_hit ⟨false⟩ rid cache t p inner v0 h1 h2
      exact ⟨inner, by rw [hg, hprep0]; exact lookupK_setK_self _ _ _, rfl⟩
    | none =>
      cases p with
      | none =>
        have hg := get_eq_missFail ⟨false⟩ rid cache t inner h1 h2
        exact ⟨inner, by rw [hg, hprep0]; exact lookupK_setK_self _ _ _, rfl⟩
      | some v0 =>
        have hg := get_eq_missOk ⟨false⟩ rid cache t inner v0 h1 h2
        refine ⟨{ inner with vals := setK inner.vals t v0 }, ?_, rfl⟩
        rw [hg]
        simp only [hprep0, show (⟨false⟩ : RequestScopeOptions).enable_cleanup
          = false from rfl, if_false]
        exact lookupK_setK_self _ _ _
  · intro h2 hcm
    have hg := get_eq_missOk ⟨true⟩ rid cache t inner v h1 h2
    have hstk : (cleanupPrep ⟨true⟩ inner).stack = some (inner.stack.getD []) :=
      cleanupPrep_stack_of_enabled ⟨true⟩ inner rfl
    have hreg := register_of_cm
      { cleanupPrep ⟨true⟩ inner with
          vals := setK (cleanupPrep ⟨true⟩ inner).vals t v } v hcm
    refine ⟨by rw [hg], ?_⟩
    refine ⟨{ cleanupPrep ⟨true⟩ inner with
        vals := setK (cleanupPrep ⟨true⟩ inner).vals t v,
        stack := some (v :: inner.stack.getD []) }, ?_, rfl, ?_⟩
    · rw [hg]
      simp only [show (⟨true⟩ : RequestScopeOptions).enable_cleanup = true
        from rfl, if_true, hreg]
      simp only [hstk, Option.getD_some]
      exact lookupK_setK_self _ _ _
    · apply clear_key_released _ _
        { cleanupPrep ⟨true⟩ inner with
            vals := setK (cleanupPrep ⟨true⟩ inner).vals t v,
            stack := some (v :: inner.stack.getD []) }
        (v :: inner.stack.getD []) ?_ rfl
      rw [hg]
      simp only [show (⟨true⟩ : RequestScopeOptions).enable_cleanup = true
        from rfl, if_true, hreg]
      simp only [hstk, Option.getD_some]
      exact lookupK_setK_self _ _ _
  · intro h2 hc ha
    have hg := get_eq_missOk ⟨true⟩ rid cache t inner v h1 h2
    have hstk : (cleanupPrep ⟨true⟩ inner).stack = some (inner.stack.getD []) :=
      cleanupPrep_stack_of_enabled ⟨true⟩ inner rfl
    have hreg := register_of_plain
      { cleanupPrep ⟨true⟩ inner with
          vals := setK (cleanupPrep ⟨true⟩ inner).vals t v } v hc ha
    refine ⟨{ cleanupPrep ⟨true⟩ inner with
        vals := setK (cleanupPrep ⟨true⟩ inner).vals t v }, ?_, ?_⟩
    · rw [hg]
      simp only [show (⟨true⟩ : RequestScopeOptions).enable_cleanup = true
        from rfl, if_true, hreg]
      exact lookupK_setK_self _ _ _
    · exact hstk

/-- C8 witness: a context manager entered and released with cleanup enabled;
with cleanup disabled, and for a plain value, the stack is untouched. -/
theorem C8_cleanup_gating_witness :
    (∀ p, ∃ s,
      lookupK (RequestScope.get ⟨false⟩ (some 0) [(0, InnerScope.empty)] 1
          p).cache 0 = some s ∧ s.stack = InnerScope.empty.stack) ∧
    (lookupK InnerScope.empty.vals 1 = none →
      cmVal.isCtxMgr = true ∨ cmVal.isAsyncCtxMgr = true →
      (RequestScope.get ⟨true⟩ (some 0) [(0, InnerScope.empty)] 1
          (some cmVal)).res = .ok cmVal ∧
      ∃ s,
        lookupK (RequestScope.get ⟨true⟩ (some 0) [(0, InnerScope.empty)] 1
            (some cmVal)).cache 0 = some s ∧
        s.stack = some (cmVal :: InnerScope.empty.stack.getD []) ∧
        (RequestScope.clear_key
            (RequestScope.get ⟨true⟩ (some 0) [(0, InnerScope.empty)] 1
              (some cmVal)).cache 0).released
          = cmVal :: InnerScope.empty.stack.getD []) ∧
    (lookupK InnerScope.empty.vals 1 = none →
      cmVal.isCtxMgr = false → cmVal.isAsyncCtxMgr = false →
      ∃ s,
        lookupK (RequestScope.get ⟨true⟩ (some 0) [(0, InnerScope.empty)] 1
            (some cmVal)).cache 0 = some s ∧
        s.stack = some (InnerScope.empty.stack.getD [])) :=
  C8_cleanup_gating 0 1 [(0, InnerScope.empty)] InnerScope.empty cmVal
    (by decide)

/-- C7: resources registered in order A, B, C on one scope's exit stack are
released by the scope-close flush in the strict reverse order C, B, A, and
the list is cleared afterward: on a clean flush the whole cache entry is
deleted, and even when a release raises the unwound stack is left empty. -/
theorem C7_flush_reverse_order (cache : Cache) (rid : Nat)
    (vs : List (Nat × Value)) (A B C : Value)
    (hA : A.isCtxMgr = true ∨ A.isAsyncCtxMgr = true)
    (hB : B.isCtxMgr = true ∨ B.isAsyncCtxMgr = true)
    (hC : C.isCtxMgr = true ∨ C.isAsyncCtxMgr = true)
    (h : lookupK cache rid
      = some (RequestScope.register
          (RequestScope.register
            (RequestScope.register ⟨vs, some []⟩ A) B) C)) :
    (RequestScope.clear_key cache rid).released = [C, B, A] ∧
    ((RequestScope.clear_key cache rid).res = .ok () →
      (RequestScope.clear_key cache rid).cache = delK cache rid) ∧
    ((RequestScope.clear_key cache rid).res = .error .flushError →
      ∃ s, lookupK (RequestScope.clear_key cache rid).cache rid = some s ∧
        s.stack = some []) := by
  have e1 : RequestScope.register (⟨vs, some []⟩ : InnerScope) A
      = ⟨vs, some [A]⟩ := register_of_cm _ _ hA
  have e2 : RequestScope.register (⟨vs, some [A]⟩ : InnerScope) B
      = ⟨vs, some [B, A]⟩ := register_of_cm _ _ hB
  have e3 : RequestScope.register (⟨vs, some [B, A]⟩ : InnerScope) C
      = ⟨vs, some [C, B, A]⟩ := register_of_cm _ _ hC
  have h' : lookupK cache rid = some ⟨vs, some [C, B, A]⟩ := by
    rw [h, e1, e2, e3]
  refine ⟨clear_key_released _ _ _ _ h' rfl, ?_, ?_⟩
  · intro hok
    by_cases hr : ([C, B, A].any fun v => v.exitRaises)
    · exfalso
      simp [RequestScope.clear_key, h', ExitStack.aclose, hr] at hok
    · simp [RequestScope.clear_key, h', ExitStack.aclose, hr]
  · intro herr
    by_cases hr : ([C, B, A].any fun v => v.exitRaises)
    · refine ⟨⟨vs, some []⟩, ?_, rfl⟩
      simp [RequestScope.clear_key, h', ExitStack.aclose, hr]
      exact lookupK_setK_self _ _ _
    · exfalso
      simp [RequestScope.clear_key, h', ExitStack.aclose, hr] at herr

/-- C7 witness: three concrete context managers released in reverse order. -/
theorem C7_flush_reverse_order_witness :
    (RequestScope.clear_key
        [(5, RequestScope.register
            (RequestScope.register
              (RequestScope.register ⟨[], some []⟩ cmVal) acmVal) cmValB)]
        5).released = [cmValB, acmVal, cmVal] ∧
    ((RequestScope.clear_key
        [(5, RequestScope.register
            (RequestScope.register
              (RequestScope.register ⟨[], some []⟩ cmVal) acmVal) cmValB)]
        5).res = .ok () →
      (RequestScope.clear_key
        [(5, RequestScope.register
            (RequestScope.register
              (RequestScope.register ⟨[], some []⟩ cmVal) acmVal) cmValB)]
        5).cache
      = delK
          [(5, RequestScope.register
              (RequestScope.register
                (RequestScope.register ⟨[], some []⟩ cmVal) acmVal) cmValB)]
          5) ∧
    ((RequestScope.clear_key
        [(5, RequestScope.register
            (RequestScope.register
              (RequestScope.register ⟨[], some []⟩ cmVal) acmVal) cmValB)]
        5).res = .error .flushError →
      ∃ s, lookupK
          (RequestScope.clear_key
            [(5, RequestScope.register
                (RequestScope.register
                  (RequestScope.register ⟨[], some []⟩ cmVal) acmVal)
                cmValB)]
            5).cache 5 = some s ∧ s.stack = some []) :=
  C7_flush_reverse_order
    [(5, RequestScope.register
        (RequestScope.register
          (RequestScope.register ⟨[], some []⟩ cmVal) acmVal) cmValB)]
    5 [] cmVal acmVal cmValB (by decide) (by decide) (by decide) (by decide)

/-- Fact: `cleanupPrep` does not change which values are on the exit stack. -/
theorem cleanupPrep_stack_elems (opts : RequestScopeOptions) (s : InnerScope) :
    (cleanupPrep opts s).stack.getD [] = s.stack.getD [] := by
  rcases s with ⟨vs, st⟩
  cases st <;> by_cases h : opts.enable_cleanup <;> simp [cleanupPrep, h]

/-- Every value on the stack after `_register` is the registered value or was
already on the stack. -/
theorem register_stack_elems (s : InnerScope) (v : Value) :
    ∀ x ∈ (RequestScope.register s v).stack.getD [],
      x = v ∨ x ∈ s.stack.getD [] := by
  intro x hx
  cases hc : v.isCtxMgr with
  | true =>
    simp [RequestScope.register, hc] at hx
    rcases hx with rfl | hx
    · exact Or.inl rfl
    · exact Or.inr hx
  | false =>
    cases ha : v.isAsyncCtxMgr with
    | true =>
      simp [RequestScope.register, hc, ha] at hx
      rcases hx with rfl | hx
      · exact Or.inl rfl
      · exact Or.inr hx
    | false =>
      rw [register_of_plain s v hc ha] at hx
      exact Or.inr hx

/-- Running a sequence of `get` calls in an open scope keeps the cache in the
shape `base ++ [(rid, inner)]` — the base entries are untouched — and, when
no provider value has a raising release, keeps the exit stack free of raising
values. -/
theorem runGets_shape (opts : RequestScopeOptions) (rid : Nat) (base : Cache)
    (hb : lookupK base rid = none) :
    ∀ (ops : List (Nat × Option Value)) (inner : InnerScope),
      (∀ v ∈ inner.stack.getD [], v.exitRaises = false) →
      (∀ o ∈ ops, ∀ v, o.2 = some v → v.exitRaises = false) →
      ∃ inner',
        (runGets opts ⟨some rid, base ++ [(rid, inner)]⟩ ops).world
          = ⟨some rid, base ++ [(rid, inner')]⟩ ∧
        (∀ v ∈ inner'.stack.getD [], v.exitRaises = false) := by
  intro ops
  induction ops with
  | nil =>
    intro inner hstk _
    exact ⟨inner, by simp [runGets], hstk⟩
  | cons op rest ih =>
    obtain ⟨t, p⟩ := op
    intro inner hstk hops
    have hrest : ∀ o ∈ rest, ∀ v, o.2 = some v → v.exitRaises = false :=
      fun o ho => hops o (List.mem_cons_of_mem _ ho)
    have h1 : lookupK (base ++ [(rid, inner)]) rid = some inner :=
      lookupK_append_last base rid inner hb
    have hset : ∀ s : InnerScope,
        setK (base ++ [(rid, inner)]) rid s = base ++ [(rid, s)] :=
      fun s => setK_append_last base rid inner s hb
    have hprepstk : ∀ v ∈ (cleanupPrep opts inner).stack.getD [],
        v.exitRaises = false := by
      rw [cleanupPrep_stack_elems]; exact hstk
    cases h2 : lookupK inner.vals t with
    | some v0 =>
      have hg := get_eq_hit opts rid (base ++ [(rid, inner)]) t p inner v0 h1 h2
      obtain ⟨inner', hw, hs⟩ := ih (cleanupPrep opts inner) hprepstk hrest
      refine ⟨inner', ?_, hs⟩
      simp only [runGets, hg, hset]
      exact hw
    | none =>
      cases p with
      | none =>
        have hg := get_eq_missFail opts rid (base ++ [(rid, inner)]) t inner h1 h2
        refine ⟨cleanupPrep opts inner, ?_, hprepstk⟩
        simp [runGets, hg, hset]
      | some v0 =>
        have hv0 : v0.exitRaises = false :=
          hops (t, some v0) (List.mem_cons_self _ _) v0 rfl
        have hg := get_eq_missOk opts rid (base ++ [(rid, inner)]) t
          inner v0 h1 h2
        have hstk3 : ∀ v ∈
            (if opts.enable_cleanup then
              RequestScope.register
                { cleanupPrep opts inner with
                    vals := setK (cleanupPrep opts inner).vals t v0 } v0
            else
              { cleanupPrep opts inner with
                  vals := setK (cleanupPrep opts inner).vals t v0 }).stack.getD
              [], v.exitRaises = false := by
          intro x hx
          by_cases hc : opts.enable_cleanup
          · rw [if_pos hc] at hx
            rcases register_stack_elems _ v0 x hx with rfl | hx'
            · exact hv0
            · exact hprepstk x hx'
          · rw [if_neg hc] at hx
            exact hprepstk x hx
        obtain ⟨inner', hw, hs⟩ := ih _ hstk3 hrest
        refine ⟨inner', ?_, hs⟩
        simp only [runGets, hg, hset]
        exact hw

/-- When teardown's `clear_key` returns normally, `create_scope`'s result is
the body's outcome together with the post-`clear_key` cache and the restored
context-variable value. -/
theorem create_scope_of_clear_ok (rid : Nat) (w : World)
    (body : World → World × Bool)
    (hres : (RequestScope.clear_key
        (body ⟨some rid, RequestScope.add_key w.cache rid⟩).1.cache rid).res
      = .ok ()) :
    RequestScopeFactory.create_scope rid w body
      = ((if (body ⟨some rid, RequestScope.add_key w.cache rid⟩).2 then .ok
          else .bodyError),
        ⟨w.requestId,
          (RequestScope.clear_key
            (body ⟨some rid, RequestScope.add_key w.cache rid⟩).1.cache
            rid).cache⟩) := by
  have hck : RequestScope.clear_key
      (body ⟨some rid, RequestScope.add_key w.cache rid⟩).1.cache rid
      = ⟨.ok (),
          (RequestScope.clear_key
            (body ⟨some rid, RequestScope.add_key w.cache rid⟩).1.cache
            rid).cache,
          (RequestScope.clear_key
            (body ⟨some rid, RequestScope.add_key w.cache rid⟩).1.cache
            rid).released⟩ := by
    rw [← hres]
  simp only [RequestScopeFactory.create_scope]
  rw [hck]

/-- C2 (amended): for a fresh scope id and a handler body of sequential
dependency lookups none of whose produced values raises on release, teardown
runs flush, then deletes the per-scope cache entry, then restores the
previously published identifier: afterwards the outer cache is exactly its
pre-request value (so its size is restored and the per-scope entry is
absent), the identifier is restored, and the outcome is the body's own
(never a teardown failure).  The raising-release exit path is the
counterexample: there the entry and the identifier survive. -/
theorem C2_teardown_restores (opts : RequestScopeOptions) (rid : Nat)
    (w : World) (ops : List (Nat × Option Value))
    (hfresh : lookupK w.cache rid = none)
    (hops : ∀ o ∈ ops, ∀ v, o.2 = some v → v.exitRaises = false) :
    (RequestScopeFactory.create_scope rid w (getsBody opts ops)).2.cache
        = w.cache ∧
    (RequestScopeFactory.create_scope rid w (getsBody opts ops)).2.requestId
        = w.requestId ∧
    (RequestScopeFactory.create_scope rid w (getsBody opts ops)).1
        ≠ .teardownError := by
  have hadd : RequestScope.add_key w.cache rid
      = w.cache ++ [(rid, InnerScope.empty)] :=
    setK_fresh w.cache rid InnerScope.empty hfresh
  obtain ⟨inner', hw, hstk⟩ := runGets_shape opts rid w.cache hfresh ops
    InnerScope.empty (by simp [InnerScope.empty]) hops
  have hb1 : (getsBody opts ops ⟨some rid, RequestScope.add_key w.cache rid⟩).1
      = ⟨some rid, w.cache ++ [(rid, inner')]⟩ := by
    simp only [getsBody, hadd]
    exact hw
  have hlk : lookupK (w.cache ++ [(rid, inner')]) rid = some inner' :=
    lookupK_append_last _ _ _ hfresh
  have hclr : (RequestScope.clear_key (w.cache ++ [(rid, inner')]) rid).res
      = .ok () ∧
      (RequestScope.clear_key (w.cache ++ [(rid, inner')]) rid).cache
      = w.cache := by
    cases hs : inner'.stack with
    | none =>
      simp [RequestScope.clear_key, hlk, hs, delK_append_last _ _ _ hfresh]
    | some st =>
      have hany : (st.any fun v => v.exitRaises) = false := by
        rw [List.any_eq_false]
        intro x hx
        have hxr := hstk x (by rw [hs]; exact hx)
        simp [hxr]
      simp [RequestScope.clear_key, hlk, hs, ExitStack.aclose, hany,
        delK_append_last _ _ _ hfresh]
  have hcs := create_scope_of_clear_ok rid w (getsBody opts ops)
    (by rw [hb1]; exact hclr.1)
  rw [hb1] at hcs
  refine ⟨?_, ?_, ?_⟩
  · rw [hcs]; exact hclr.2
  · rw [hcs]
  · rw [hcs]
    cases (getsBody opts ops ⟨some rid, RequestScope.add_key w.cache rid⟩).2 <;>
      simp

/-- C2 witness: a clean request with one produced context manager — the
cache and the identifier return to their pre-request state. -/
theorem C2_teardown_restores_witness :
    (RequestScopeFactory.create_scope 7 ⟨none, []⟩
        (getsBody ⟨true⟩ [(1, some cmVal)])).2.cache = ([] : Cache) ∧
    (RequestScopeFactory.create_scope 7 ⟨none, []⟩
        (getsBody ⟨true⟩ [(1, some cmVal)])).2.requestId = none ∧
    (RequestScopeFactory.create_scope 7 ⟨none, []⟩
        (getsBody ⟨true⟩ [(1, some cmVal)])).1 ≠ .teardownError := by
  have h := C2_teardown_restores ⟨true⟩ 7 ⟨none, []⟩ [(1, some cmVal)]
    (by decide) (by decide)
  exact h

/-- C2 counterexample: when a registered resource's release raises during
flush, `clear_key` propagates before `del self.cache[key]` and before the
context-variable reset: the scope's cache entry survives (the outer cache
does not return to its pre-request size) and the identifier stays
published. -/
theorem C2_counterexample :
    (RequestScopeFactory.create_scope 7 ⟨none, []⟩
        (getsBody ⟨true⟩ [(1, some raisingVal)])).1 = .teardownError ∧
    lookupK (RequestScopeFactory.create_scope 7 ⟨none, []⟩
        (getsBody ⟨true⟩ [(1, some raisingVal)])).2.cache 7 ≠ none ∧
    (RequestScopeFactory.create_scope 7 ⟨none, []⟩
        (getsBody ⟨true⟩ [(1, some raisingVal)])).2.cache.length ≠ 0 ∧
    (RequestScopeFactory.create_scope 7 ⟨none, []⟩
        (getsBody ⟨true⟩ [(1, some raisingVal)])).2.requestId = some 7 := by
  decide

theorem lookupK_setK_isSome {α : Type} (l : List (Nat × α)) (k j : Nat)
    (v : α) :
    (lookupK (setK l k v) j).isSome = true ↔
      (j = k ∨ (lookupK l j).isSome = true) := by
  by_cases h : j = k
  · subst h; simp [lookupK_setK_self]
  · simp [lookupK_setK_ne l k j v h, h]

theorem register_stack_isSome (s : InnerScope) (v : Value)
    (h : s.stack.isSome = true) :
    (RequestScope.register s v).stack.isSome = true := by
  cases hc : v.isCtxMgr <;> cases ha : v.isAsyncCtxMgr <;>
    simp [RequestScope.register, hc, ha, h]

/-- Which typed entries the inner mapping holds after a run of lookups whose
providers all succeed: exactly those present before plus the requested type
keys; the `AsyncExitStack` slot is untouched with cleanup disabled and is
present after any lookup with cleanup enabled. -/
theorem runGets_entries (opts : RequestScopeOptions) (rid : Nat) :
    ∀ (ops : List (Nat × Option Value)) (cache : Cache) (inner : InnerScope),
      (∀ o ∈ ops, o.2.isSome = true) →
      lookupK cache rid = some inner →
      ∃ inner',
        lookupK (runGets opts ⟨some rid, cache⟩ ops).world.cache rid
          = some inner' ∧
        (∀ u, (lookupK inner'.vals u).isSome = true ↔
          ((lookupK inner.vals u).isSome = true ∨ u ∈ ops.map Prod.fst)) ∧
        (opts.enable_cleanup = false → inner'.stack = inner.stack) ∧
        (opts.enable_cleanup = true →
          (inner'.stack.isSome = true ↔
            (inner.stack.isSome = true ∨ ops ≠ []))) := by
  intro ops
  induction ops with
  | nil =>
    intro cache inner _ h1
    refine ⟨inner, by simpa [runGets] using h1, fun u => by simp,
      fun _ => rfl, fun _ => by simp⟩
  | cons op rest ih =>
    obtain ⟨t, p⟩ := op
    intro cache inner hall h1
    have hp : p.isSome = true := hall (t, p) (List.mem_cons_self _ _)
    obtain ⟨v0, rfl⟩ := Option.isSome_iff_exists.mp hp
    have hrest : ∀ o ∈ rest, o.2.isSome = true :=
      fun o ho => hall o (List.mem_cons_of_mem _ ho)
    cases h2 : lookupK inner.vals t with
    | some w0 =>
      have hg := get_eq_hit opts rid cache t (some v0) inner w0 h1 h2
      obtain ⟨inner', ha, hb, hc, hd⟩ := ih (setK cache rid
        (cleanupPrep opts inner)) (cleanupPrep opts inner) hrest
        (lookupK_setK_self _ _ _)
      refine ⟨inner', by simp only [runGets, hg]; exact ha, ?_, ?_, ?_⟩
      · intro u
        rw [hb u, cleanupPrep_vals]
        constructor
        · rintro (h | h)
          · exact Or.inl h
          · exact Or.inr (by simp [List.mem_cons_of_mem, h])
        · rintro (h | h)
          · exact Or.inl h
          · have h2m : u ∈ t :: List.map Prod.fst rest := by simpa using h
            rcases List.mem_cons.mp h2m with rfl | h'
            · exact Or.inl (by simp [h2])
            · exact Or.inr h'
      · intro hcl
        rw [hc hcl, cleanupPrep_of_disabled _ _ hcl]
      · intro hcl
        have hsome : (cleanupPrep opts inner).stack.isSome = true := by
          rw [cleanupPrep_stack_of_enabled _ _ hcl]; rfl
        rw [hd hcl]
        simp [hsome]
    | none =>
      have hg := get_eq_missOk opts rid cache t inner v0 h1 h2
      by_cases hcl : opts.enable_cleanup
      · simp only [hcl, if_true] at hg
        have hvals : (RequestScope.register
            { cleanupPrep opts inner with
                vals := setK (cleanupPrep opts inner).vals t v0 } v0).vals
            = setK inner.vals t v0 := by
          rw [register_vals]
          show setK (cleanupPrep opts inner).vals t v0 = setK inner.vals t v0
          rw [cleanupPrep_vals]
        have hsome3 : (RequestScope.register
            { cleanupPrep opts inner with
                vals := setK (cleanupPrep opts inner).vals t v0 }
            v0).stack.isSome = true := by
          apply register_stack_isSome
          show (cleanupPrep opts inner).stack.isSome = true
          rw [cleanupPrep_stack_of_enabled _ _ hcl]; rfl
        obtain ⟨inner', ha, hb, _, hd⟩ := ih _ _ hrest
          (lookupK_setK_self cache rid (RequestScope.register
            { cleanupPrep opts inner with
                vals := setK (cleanupPrep opts inner).vals t v0 } v0))
        refine ⟨inner', by simp only [runGets, hg]; exact ha, ?_, ?_, ?_⟩
        · intro u
          rw [hb u, hvals, lookupK_setK_isSome]
          constructor
          · rintro ((rfl | h) | h)
            · exact Or.inr (by simp)
            · exact Or.inl h
            · exact Or.inr (by simp [List.mem_cons_of_mem, h])
          · rintro (h | h)
            · exact Or.inl (Or.inr h)
            · have h2m : u ∈ t :: List.map Prod.fst rest := by simpa using h
              rcases List.mem_cons.mp h2m with rfl | h'
              · exact Or.inl (Or.inl rfl)
              · exact Or.inr h'
        · intro hcl'; rw [hcl] at hcl'; cases hcl'
        · intro _
          rw [hd hcl]
          simp [hsome3]
      · have hcl' : opts.enable_cleanup = false := by
          simpa using hcl
        simp only [hcl', if_false] at hg
        have hprep : cleanupPrep opts inner = inner :=
          cleanupPrep_of_disabled _ _ hcl'
        rw [hprep] at hg
        obtain ⟨inner', ha, hb, hc, _⟩ := ih _ _ hrest
          (lookupK_setK_self cache rid
            { inner with vals := setK inner.vals t v0 })
        refine ⟨inner', by simp only [runGets, hg]; exact ha, ?_, ?_, ?_⟩
        · intro u
          rw [hb u]
          show (lookupK (setK inner.vals t v0) u).isSome = true ∨ _ ↔ _
          rw [lookupK_setK_isSome]
          constructor
          · rintro ((rfl | h) | h)
            · exact Or.inr (by simp)
            · exact Or.inl h
            · exact Or.inr (by simp [List.mem_cons_of_mem, h])
          · rintro (h | h)
            · exact Or.inl (Or.inr h)
            · have h2m : u ∈ t :: List.map Prod.fst rest := by simpa using h
              rcases List.mem_cons.mp h2m with rfl | h'
              · exact Or.inl (Or.inl rfl)
              · exact Or.inr h'
        · intro _
          exact hc hcl'
        · intro hx; rw [hcl'] at hx; cases hx

/-- C3 (amended): in a freshly opened scope, after any sequence of lookups
whose providers all succeed, the inner mapping holds an entry under a type
key exactly for the types that were requested — lazily populated, nothing
for never-requested types — except that, with cleanup enabled, the first
lookup also creates one extra entry under the `AsyncExitStack` class key
(absent with cleanup disabled). -/
theorem C3_entries_iff_requested (opts : RequestScopeOptions) (rid : Nat)
    (cache : Cache) (ops : List (Nat × Option Value))
    (hall : ∀ o ∈ ops, o.2.isSome = true)
    (h : lookupK cache rid = some InnerScope.empty) :
    ∃ inner',
      lookupK (runGets opts ⟨some rid, cache⟩ ops).world.cache rid
        = some inner' ∧
      (∀ u, (lookupK inner'.vals u).isSome = true ↔ u ∈ ops.map Prod.fst) ∧
      (inner'.stack.isSome = true ↔
        (opts.enable_cleanup = true ∧ ops ≠ [])) := by
  obtain ⟨inner', ha, hb, hc, hd⟩ :=
    runGets_entries opts rid ops cache InnerScope.empty hall h
  refine ⟨inner', ha, ?_, ?_⟩
  · intro u
    rw [hb u]
    simp [InnerScope.empty, lookupK]
  · by_cases hcl : opts.enable_cleanup
    · rw [hd hcl]
      simp [InnerScope.empty, hcl]
    · have hcl' : opts.enable_cleanup = false := by simpa using hcl
      rw [hc hcl']
      simp [InnerScope.empty, hcl']

/-- C3 witness: two lookups of distinct types with cleanup enabled. -/
theorem C3_entries_iff_requested_witness :
    ∃ inner',
      lookupK (runGets ⟨true⟩ ⟨some 0, [(0, InnerScope.empty)]⟩
          [(1, some plainVal), (2, some cmVal)]).world.cache 0
        = some inner' ∧
      (∀ u, (lookupK inner'.vals u).isSome = true ↔
        u ∈ [(1, some plainVal), (2, some cmVal)].map Prod.fst) ∧
      (inner'.stack.isSome = true ↔
        ((⟨true⟩ : RequestScopeOptions).enable_cleanup = true ∧
          ([(1, some plainVal), (2, some cmVal)]
            : List (Nat × Option Value)) ≠ [])) :=
  C3_entries_iff_requested ⟨true⟩ 0 [(0, InnerScope.empty)]
    [(1, some plainVal), (2, some cmVal)] (by decide) (by decide)

/-- C3 counterexample: with cleanup enabled, a single lookup of type 1 leaves
the inner mapping with an entry under the `AsyncExitStack` class key — a
type that was never requested through `getOrCreate`. -/
theorem C3_counterexample :
    (lookupK (RequestScope.get ⟨true⟩ (some 0) [(0, InnerScope.empty)] 1
        (some plainVal)).cache 0).map (fun s => s.stack.isSome)
      = some true := by
  decide

/-- C10 counterexample: `RequestScope.get` holds no lock, so two threads that
both pass the membership test of line 94 before either one stores (schedule
a-check, b-check, a-store, b-store) each invoke the producer: two provider
invocations, and the two calls return distinct instances. -/
theorem C10_counterexample :
    (raceRun 0 1 ⟨1, false, false, false⟩ ⟨2, false, false, false⟩
        [true, false, true, false]
        ⟨[(0, InnerScope.empty)], .checking, .checking, 0⟩).invocations
      = 2 ∧
    (raceRun 0 1 ⟨1, false, false, false⟩ ⟨2, false, false, false⟩
        [true, false, true, false]
        ⟨[(0, InnerScope.empty)], .checking, .checking, 0⟩).a
      = .finished ⟨1, false, false, false⟩ ∧
    (raceRun 0 1 ⟨1, false, false, false⟩ ⟨2, false, false, false⟩
        [true, false, true, false]
        ⟨[(0, InnerScope.empty)], .checking, .checking, 0⟩).b
      = .finished ⟨2, false, false, false⟩ ∧
    (raceRun 0 1 ⟨1, false, false, false⟩ ⟨2, false, false, false⟩
        [true, false, true, false]
        ⟨[(0, InnerScope.empty)], .checking, .checking, 0⟩).a
      ≠ (raceRun 0 1 ⟨1, false, false, false⟩ ⟨2, false, false, false⟩
        [true, false, true, false]
        ⟨[(0, InnerScope.empty)], .checking, .checking, 0⟩).b := by
  decide

/-- C10 (amended): creation is not serialized in the code; only when the
two calls do not interleave is the producer invoked once.  Here: when one
call completes its store before the other's membership test (schedule
a-check, a-store, b-check), there is exactly one provider invocation and
both calls return the same instance. -/
theorem C10_sequential_single_invocation (rid t : Nat) (va vb : Value)
    (cache : Cache) (inner : InnerScope)
    (h1 : lookupK cache rid = some inner)
    (h2 : lookupK inner.vals t = none) :
    raceRun rid t va vb [true, true, false]
        ⟨cache, .checking, .checking, 0⟩
      = ⟨setK cache rid { inner with vals := setK inner.vals t va },
          .finished va, .finished va, 1⟩ := by
  simp [raceRun, raceStep, h1, h2, lookupK_setK_self]

/-- C10 witness: the sequential schedule on a fresh scope. -/
theorem C10_sequential_single_invocation_witness :
    raceRun 0 1 plainVal cmVal [true, true, false]
        ⟨[(0, InnerScope.empty)], .checking, .checking, 0⟩
      = ⟨setK [(0, InnerScope.empty)] 0
            { InnerScope.empty with
                vals := setK InnerScope.empty.vals 1 plainVal },
          .finished plainVal, .finished plainVal, 1⟩ :=
  C10_sequential_single_invocation 0 1 plainVal cmVal
    [(0, InnerScope.empty)] InnerScope.empty (by decide) (by decide)

end FastapiInjector
